import Mathlib

/-!
# Verification of the docker-compose-manager deployment core

A shallow embedding, in Lean 4, of the Python sources of the
`docker-compose-manager` repository:

* `src/core/config.py`    — `ConfigManager` (defaults, one-level merge, `validate`)
* `src/core/manager.py`   — `DockerComposeManager` (constructor, `switch_environment`)
* `src/deployment/strategies.py` — `DeploymentManager` (`deploy`, hooks, strategies, rollback)
* `src/deployment/backup.py`     — `BackupManager` (`create_backup`, `list_backups`,
  `cleanup_old_backups`)
* `src/monitoring/health.py`     — `StatusMonitor.monitor_services`

Modelling conventions:

* Python values that flow through the configuration tree are modelled by `PyVal`
  (strings, integers, booleans, `None`, lists, dictionaries).  Dictionaries are
  association lists in insertion order; Python guarantees unique keys, and every
  operation below reads/updates the first occurrence of a key, which agrees with
  Python on unique-key dictionaries.
* Python string timestamps (ISO-8601, fixed format) are modelled by integers
  (seconds); comparison of two such strings agrees with comparison of the time
  points they denote.
* Exceptions escaping a function are modelled with `Option`/`Except`; the
  `Except` error strings are the Python exception class names (`"TypeError"`,
  `"KeyError"`, `"EnvironmentError"`, `"DockerComposeError"`).
* External command execution (`execute_command` and the `pull`/`stop`/`build`/
  `start` wrappers of `DockerComposeManager`) is modelled by a stream of
  responses (`Option String`: `none` is Python `None`, i.e. a failed command;
  `some s` is the captured stdout).  Each executor call consumes one response.
-/

/-- A Python value, as far as the configuration tree and the functions below
need it.  `dict` keeps entries in insertion order, mirroring Python dicts. -/
inductive PyVal where
  | str (s : String)
  | int (n : Int)
  | bool (b : Bool)
  | pynone
  | list (xs : List PyVal)
  | dict (entries : List (String × PyVal))

/-- A Python dictionary with string keys: an association list in insertion
order (keys are unique in every dictionary Python actually builds). -/
abbrev PyDict := List (String × PyVal)

/-- Look up a key in a dictionary (first occurrence), i.e. Python `d[k]` /
`d.get(k)` on a unique-key dict. -/
def findKey (k : String) : PyDict → Option PyVal
  | [] => Option.none
  | (k', v) :: rest => if k' = k then some v else findKey k rest

/-- Python `d.get(k, dflt)`. -/
def pyGetD (d : PyDict) (k : String) (dflt : PyVal) : PyVal :=
  (findKey k d).getD dflt

/-- Replace the value stored at the first occurrence of `k` (Python
`d[k] = v` on a dict that already contains `k`: the key keeps its position). -/
def setKeyFirst (k : String) (v : PyVal) : PyDict → PyDict
  | [] => []
  | (k', v') :: rest =>
      if k' = k then (k', v) :: rest else (k', v') :: setKeyFirst k v rest

/-- Python truthiness (`bool(v)`) for the value forms we model. -/
def pyTruthy : PyVal → Bool
  | PyVal.str s => s ≠ ""
  | PyVal.int n => n ≠ 0
  | PyVal.bool b => b
  | PyVal.pynone => false
  | PyVal.list xs => ¬ xs.isEmpty
  | PyVal.dict d => ¬ d.isEmpty

/-- Python `v == lit` for a string literal `lit`: equal only when `v` is an
equal string (no non-string value compares equal to a `str`). -/
def pyEqStr (v : PyVal) (lit : String) : Bool :=
  match v with
  | PyVal.str s => s = lit
  | _ => false

/-- Python `isinstance(v, int)` together with the integer value used in
comparisons: holds for `int` and (by subclassing) `bool` (`True` counts as 1,
`False` as 0). -/
def asPyNumber : PyVal → Option Int
  | PyVal.int n => some n
  | PyVal.bool b => some (if b then 1 else 0)
  | _ => Option.none

/-!
## `ConfigManager` (src/core/config.py)
-/

namespace ConfigManager

/-- `ConfigManager._get_defaults` (config.py lines 32-64), translated verbatim. -/
def getDefaults : PyDict :=
  [ ("project", PyVal.dict
      [ ("name", PyVal.str "docker-compose-manager"),
        ("version", PyVal.str "1.0.0") ]),
    ("environments", PyVal.dict
      [ ("dev", PyVal.dict [("compose_file", PyVal.str "docker-compose.yml")]) ]),
    ("services", PyVal.list []),
    ("monitoring", PyVal.dict
      [ ("enabled", PyVal.bool false),
        ("interval", PyVal.int 60) ]),
    ("deployment", PyVal.dict
      [ ("strategy", PyVal.str "recreate"),
        ("rollback_on_failure", PyVal.bool true),
        ("max_surge", PyVal.int 1),
        ("max_unavailable", PyVal.int 0) ]),
    ("backup", PyVal.dict
      [ ("enabled", PyVal.bool false),
        ("destination", PyVal.str "./backups"),
        ("retention", PyVal.int 30) ]),
    ("logging", PyVal.dict
      [ ("level", PyVal.str "info"),
        ("file", PyVal.pynone) ]) ]

/-- The inner loop of `_merge_with_defaults`: for each default sub-entry,
`if sub_key not in config[key]: config[key][sub_key] = sub_value`
(appending the missing sub-key, checked against the dict as mutated so far). -/
def addMissing (inner : PyDict) (defsub : PyDict) : PyDict :=
  defsub.foldl
    (fun acc kv => if (findKey kv.1 acc).isSome then acc else acc ++ [kv]) inner

/-- One iteration of the `for key, value in defaults.items()` loop of
`_merge_with_defaults` (config.py lines 71-77): if the key is absent it is
appended with the whole default value; if both the default value and the
current value are dicts, missing sub-keys are appended; otherwise the loaded
value is kept untouched. -/
def mergeStep (cfg : PyDict) (e : String × PyVal) : PyDict :=
  match findKey e.1 cfg with
  | Option.none => cfg ++ [e]
  | Option.some cur =>
    match e.2, cur with
    | PyVal.dict dv, PyVal.dict cv =>
        setKeyFirst e.1 (PyVal.dict (addMissing cv dv)) cfg
    | _, _ => cfg

/-- `ConfigManager._merge_with_defaults` (config.py lines 66-79): the
one-level deep merge of a loaded settings tree with `_get_defaults()`. -/
def mergeWithDefaults (cfg : PyDict) : PyDict :=
  getDefaults.foldl mergeStep cfg

end ConfigManager

/-!
### Idempotence machinery for the merge (claim C7)
-/

namespace ConfigManager

theorem findKey_append_of_isSome {k : String} {d : PyDict} {v : PyVal}
    (h : findKey k d = some v) (l : PyDict) : findKey k (d ++ l) = some v := by
  induction d with
  | nil => simp [findKey] at h
  | cons e rest ih =>
      cases e with
      | mk k' v' =>
        by_cases hk : k' = k
        · simp [findKey, hk] at h ⊢; exact h
        · simp [findKey, hk] at h ⊢; exact ih h

theorem findKey_append_of_none {k : String} {d : PyDict}
    (h : findKey k d = Option.none) (l : PyDict) :
    findKey k (d ++ l) = findKey k l := by
  induction d with
  | nil => simp
  | cons e rest ih =>
      cases e with
      | mk k' v' =>
        by_cases hk : k' = k
        · simp [findKey, hk] at h
        · simp [findKey, hk] at h ⊢; exact ih h

theorem findKey_setKeyFirst_self {k : String} {d : PyDict}
    (h : (findKey k d).isSome) (w : PyVal) :
    findKey k (setKeyFirst k w d) = some w := by
  induction d with
  | nil => simp [findKey] at h
  | cons e rest ih =>
      cases e with
      | mk k' v' =>
        by_cases hk : k' = k
        · simp [findKey, setKeyFirst, hk]
        · simp [findKey, setKeyFirst, hk] at h ⊢; exact ih h

theorem findKey_setKeyFirst_ne {k k' : String} (hne : k ≠ k') {d : PyDict}
    (w : PyVal) : findKey k (setKeyFirst k' w d) = findKey k d := by
  induction d with
  | nil => simp [setKeyFirst]
  | cons e rest ih =>
      obtain ⟨k'', v''⟩ := e
      by_cases hk : k'' = k'
      · have hkk : ¬ (k'' = k) := fun h => hne (by rw [← h, hk])
        have hkk2 : ¬ (k' = k) := fun h => hne h.symm
        simp [setKeyFirst, hk, findKey, hkk, hkk2]
      · simp [setKeyFirst, hk, findKey, ih]

theorem setKeyFirst_findKey_self {k : String} {d : PyDict} {v : PyVal}
    (h : findKey k d = some v) : setKeyFirst k v d = d := by
  induction d with
  | nil => rfl
  | cons e rest ih =>
      cases e with
      | mk k' v' =>
        by_cases hk : k' = k
        · simp [findKey, hk] at h; simp [setKeyFirst, hk, h]
        · simp [findKey, hk] at h; simp [setKeyFirst, hk, ih h]

theorem findKey_isSome_of_mem {e : String × PyVal} {d : PyDict}
    (h : e ∈ d) : (findKey e.1 d).isSome := by
  induction d with
  | nil => simp at h
  | cons f rest ih =>
      cases f with
      | mk k' v' =>
        rcases List.mem_cons.mp h with h1 | h2
        · subst h1; simp [findKey]
        · by_cases hk : k' = e.1
          · simp [findKey, hk]
          · simp [findKey, hk]; exact ih h2

theorem addMissing_isSome {k : String} {inner : PyDict} (l : PyDict)
    (h : (findKey k inner).isSome) : (findKey k (addMissing inner l)).isSome := by
  induction l generalizing inner with
  | nil => exact h
  | cons e rest ih =>
      show (findKey k (List.foldl _ _ (e :: rest))).isSome
      rw [List.foldl_cons]
      by_cases he : (findKey e.1 inner).isSome
      · simp only [he, if_pos]
        exact ih h
      · simp only [he, if_neg, Bool.false_eq_true, not_false_iff]
        apply ih
        rcases hv : findKey k inner with _ | v
        · rw [hv] at h; simp at h
        · rw [findKey_append_of_isSome hv]; rfl

theorem addMissing_mem_isSome {e : String × PyVal} {l : PyDict}
    (hmem : e ∈ l) (inner : PyDict) :
    (findKey e.1 (addMissing inner l)).isSome := by
  induction l generalizing inner with
  | nil => simp at hmem
  | cons f rest ih =>
      show (findKey e.1 (List.foldl _ _ (f :: rest))).isSome
      rw [List.foldl_cons]
      rcases List.mem_cons.mp hmem with h1 | h2
      · subst h1
        by_cases he : (findKey e.1 inner).isSome
        · simp only [he, if_pos]
          exact addMissing_isSome rest he
        · simp only [he, if_neg, Bool.false_eq_true, not_false_iff]
          apply addMissing_isSome
          rcases hv : findKey e.1 inner with _ | v
          · rw [findKey_append_of_none hv]; simp [findKey]
          · rw [hv] at he; simp at he
      · exact ih h2 _

theorem addMissing_eq_self {inner : PyDict} {l : PyDict}
    (h : ∀ e ∈ l, (findKey e.1 inner).isSome) : addMissing inner l = inner := by
  induction l with
  | nil => rfl
  | cons e rest ih =>
      show List.foldl _ _ (e :: rest) = inner
      rw [List.foldl_cons]
      have he : (findKey e.1 inner).isSome := h e (List.mem_cons_self e rest)
      simp only [he, if_pos]
      exact ih (fun f hf => h f (List.mem_cons_of_mem e hf))

/-- The merge has saturated an entry of the defaults: the key is present, and
when both the default value and the stored value are dicts, every default
sub-key is present in the stored dict. -/
def SatEntry (cfg : PyDict) (e : String × PyVal) : Prop :=
  ∃ cur, findKey e.1 cfg = some cur ∧
    ∀ dv, e.2 = PyVal.dict dv → ∀ cv, cur = PyVal.dict cv →
      ∀ se ∈ dv, (findKey se.1 cv).isSome

/-- Does a value have Python type `dict`? -/
def isDict : PyVal → Bool
  | PyVal.dict _ => true
  | _ => false

theorem mergeStep_of_none {cfg : PyDict} {e : String × PyVal}
    (h : findKey e.1 cfg = Option.none) : mergeStep cfg e = cfg ++ [e] := by
  unfold mergeStep; rw [h]

theorem mergeStep_of_dicts {cfg : PyDict} {k : String} {dv cv : PyDict}
    (h : findKey k cfg = some (PyVal.dict cv)) :
    mergeStep cfg (k, PyVal.dict dv) =
      setKeyFirst k (PyVal.dict (addMissing cv dv)) cfg := by
  unfold mergeStep; rw [h]

theorem mergeStep_of_notdicts {cfg : PyDict} {e : String × PyVal} {cur : PyVal}
    (h : findKey e.1 cfg = some cur)
    (hnd : isDict e.2 = false ∨ isDict cur = false) : mergeStep cfg e = cfg := by
  obtain ⟨k, v⟩ := e
  unfold mergeStep
  rw [h]
  cases v <;> cases cur <;> first
    | rfl
    | (simp only [isDict] at hnd; rcases hnd with h1 | h1 <;> cases h1)

theorem mergeStep_eq_self_of_sat {cfg : PyDict} {e : String × PyVal}
    (h : SatEntry cfg e) : mergeStep cfg e = cfg := by
  obtain ⟨k, v⟩ := e
  obtain ⟨cur, hfind, hsat⟩ := h
  by_cases hd : isDict v = true ∧ isDict cur = true
  · obtain ⟨hd1, hd2⟩ := hd
    cases v with
    | dict dv =>
        cases cur with
        | dict cv =>
            rw [mergeStep_of_dicts hfind]
            have hmiss : addMissing cv dv = cv :=
              addMissing_eq_self (fun se hse => hsat dv rfl cv rfl se hse)
            rw [hmiss]
            exact setKeyFirst_findKey_self hfind
        | str s => cases hd2
        | int n => cases hd2
        | bool b => cases hd2
        | pynone => cases hd2
        | list xs => cases hd2
    | str s => cases hd1
    | int n => cases hd1
    | bool b => cases hd1
    | pynone => cases hd1
    | list xs => cases hd1
  · have : isDict v = false ∨ isDict cur = false := by
      cases hv1 : isDict v with
      | false => exact Or.inl rfl
      | true =>
          cases hv2 : isDict cur with
          | false => exact Or.inr rfl
          | true => exact absurd ⟨hv1, hv2⟩ hd
    exact mergeStep_of_notdicts hfind this

theorem mergeStep_sat_self (cfg : PyDict) (e : String × PyVal) :
    SatEntry (mergeStep cfg e) e := by
  obtain ⟨k, v⟩ := e
  rcases hfind : findKey (k, v).1 cfg with _ | cur
  · rw [mergeStep_of_none hfind]
    refine ⟨v, ?_, ?_⟩
    · rw [findKey_append_of_none hfind]; simp [findKey]
    · intro dv hdv cv hcv se hse
      simp only at hdv
      rw [hdv] at hcv
      cases hcv
      exact findKey_isSome_of_mem hse
  · cases v with
    | dict dv =>
        cases cur with
        | dict cv =>
            rw [mergeStep_of_dicts hfind]
            refine ⟨PyVal.dict (addMissing cv dv), ?_, ?_⟩
            · exact findKey_setKeyFirst_self (by rw [hfind]; rfl) _
            · intro dv' hdv' cv' hcv'
              simp only [PyVal.dict.injEq] at hdv' hcv'
              subst hdv'
              subst hcv'
              intro se hse
              exact addMissing_mem_isSome hse cv
        | str s =>
            rw [mergeStep_of_notdicts hfind (Or.inr rfl)]
            exact ⟨_, hfind, by intro dv' h1 cv' h2; cases h2⟩
        | int n =>
            rw [mergeStep_of_notdicts hfind (Or.inr rfl)]
            exact ⟨_, hfind, by intro dv' h1 cv' h2; cases h2⟩
        | bool b =>
            rw [mergeStep_of_notdicts hfind (Or.inr rfl)]
            exact ⟨_, hfind, by intro dv' h1 cv' h2; cases h2⟩
        | pynone =>
            rw [mergeStep_of_notdicts hfind (Or.inr rfl)]
            exact ⟨_, hfind, by intro dv' h1 cv' h2; cases h2⟩
        | list xs =>
            rw [mergeStep_of_notdicts hfind (Or.inr rfl)]
            exact ⟨_, hfind, by intro dv' h1 cv' h2; cases h2⟩
    | str s =>
        rw [mergeStep_of_notdicts hfind (Or.inl rfl)]
        exact ⟨_, hfind, by intro dv' h1; cases h1⟩
    | int n =>
        rw [mergeStep_of_notdicts hfind (Or.inl rfl)]
        exact ⟨_, hfind, by intro dv' h1; cases h1⟩
    | bool b =>
        rw [mergeStep_of_notdicts hfind (Or.inl rfl)]
        exact ⟨_, hfind, by intro dv' h1; cases h1⟩
    | pynone =>
        rw [mergeStep_of_notdicts hfind (Or.inl rfl)]
        exact ⟨_, hfind, by intro dv' h1; cases h1⟩
    | list xs =>
        rw [mergeStep_of_notdicts hfind (Or.inl rfl)]
        exact ⟨_, hfind, by intro dv' h1; cases h1⟩

theorem mergeStep_preserves_sat {cfg : PyDict} {e f : String × PyVal}
    (hne : e.1 ≠ f.1) (h : SatEntry cfg e) : SatEntry (mergeStep cfg f) e := by
  obtain ⟨cur, hfind, hsat⟩ := h
  obtain ⟨fk, fv⟩ := f
  rcases hf : findKey (fk, fv).1 cfg with _ | curf
  · rw [mergeStep_of_none hf]
    exact ⟨cur, findKey_append_of_isSome hfind _, hsat⟩
  · cases fv with
    | dict dv =>
        cases curf with
        | dict cv =>
            rw [mergeStep_of_dicts hf]
            exact ⟨cur, by rw [findKey_setKeyFirst_ne hne]; exact hfind, hsat⟩
        | str s => rw [mergeStep_of_notdicts hf (Or.inr rfl)]; exact ⟨cur, hfind, hsat⟩
        | int n => rw [mergeStep_of_notdicts hf (Or.inr rfl)]; exact ⟨cur, hfind, hsat⟩
        | bool b => rw [mergeStep_of_notdicts hf (Or.inr rfl)]; exact ⟨cur, hfind, hsat⟩
        | pynone => rw [mergeStep_of_notdicts hf (Or.inr rfl)]; exact ⟨cur, hfind, hsat⟩
        | list xs => rw [mergeStep_of_notdicts hf (Or.inr rfl)]; exact ⟨cur, hfind, hsat⟩
    | str s => rw [mergeStep_of_notdicts hf (Or.inl rfl)]; exact ⟨cur, hfind, hsat⟩
    | int n => rw [mergeStep_of_notdicts hf (Or.inl rfl)]; exact ⟨cur, hfind, hsat⟩
    | bool b => rw [mergeStep_of_notdicts hf (Or.inl rfl)]; exact ⟨cur, hfind, hsat⟩
    | pynone => rw [mergeStep_of_notdicts hf (Or.inl rfl)]; exact ⟨cur, hfind, hsat⟩
    | list xs => rw [mergeStep_of_notdicts hf (Or.inl rfl)]; exact ⟨cur, hfind, hsat⟩

theorem foldl_preserves_sat {e : String × PyVal} {l : PyDict}
    (hne : ∀ f ∈ l, e.1 ≠ f.1) {cfg : PyDict} (h : SatEntry cfg e) :
    SatEntry (l.foldl mergeStep cfg) e := by
  induction l generalizing cfg with
  | nil => exact h
  | cons f rest ih =>
      rw [List.foldl_cons]
      exact ih (fun g hg => hne g (List.mem_cons_of_mem f hg))
        (mergeStep_preserves_sat (hne f (List.mem_cons_self f rest)) h)

theorem foldl_sat_all {l : PyDict}
    (hnd : l.Pairwise (fun a b => a.1 ≠ b.1)) (cfg : PyDict) :
    ∀ e ∈ l, SatEntry (l.foldl mergeStep cfg) e := by
  induction l generalizing cfg with
  | nil => intro e he; simp at he
  | cons f rest ih =>
      intro e he
      rw [List.foldl_cons]
      rcases List.mem_cons.mp he with h1 | h2
      · subst h1
        have hne : ∀ g ∈ rest, e.1 ≠ g.1 :=
          fun g hg => (List.pairwise_cons.mp hnd).1 g hg
        exact foldl_preserves_sat hne (mergeStep_sat_self cfg e)
      · exact ih (List.pairwise_cons.mp hnd).2 _ e h2

theorem foldl_eq_self_of_sat {l : PyDict} {cfg : PyDict}
    (h : ∀ e ∈ l, SatEntry cfg e) : l.foldl mergeStep cfg = cfg := by
  induction l with
  | nil => rfl
  | cons f rest ih =>
      rw [List.foldl_cons, mergeStep_eq_self_of_sat (h f (List.mem_cons_self f rest))]
      exact ih (fun e he => h e (List.mem_cons_of_mem f he))

theorem defaults_keys_pairwise :
    getDefaults.Pairwise (fun a b => a.1 ≠ b.1) := by
  unfold getDefaults
  decide

end ConfigManager

/-- **C7.** The one-level merge with defaults is idempotent: for every loaded
settings tree `cfg`, `merge(merge(cfg, defaults), defaults) = merge(cfg,
defaults)` (we prove equality of the dictionaries as ordered key/value
sequences, which is stronger than Python's order-insensitive `==`). -/
theorem merge_with_defaults_idempotent (cfg : PyDict) :
    ConfigManager.mergeWithDefaults (ConfigManager.mergeWithDefaults cfg) =
      ConfigManager.mergeWithDefaults cfg := by
  unfold ConfigManager.mergeWithDefaults
  exact ConfigManager.foldl_eq_self_of_sat
    (ConfigManager.foldl_sat_all ConfigManager.defaults_keys_pairwise cfg)

/-!
## Validation (`ConfigManager.validate`, config.py lines 81-147)
-/

namespace ConfigManager

/-- Python `str(v)` as used by the f-string in the unknown-strategy warning.
The rendering of composite values (list/dict repr) is abstracted; no theorem
below depends on warning texts. -/
def pyStr : PyVal → String
  | PyVal.str s => s
  | PyVal.int n => toString n
  | PyVal.bool true => "True"
  | PyVal.bool false => "False"
  | PyVal.pynone => "None"
  | PyVal.list _ => "<list>"
  | PyVal.dict _ => "<dict>"

/-- `strategy not in ['recreate', 'rolling', 'blue-green']` negated: Python
`in` compares with `==` against each literal. -/
def strategyKnown (v : PyVal) : Bool :=
  pyEqStr v "recreate" || pyEqStr v "rolling" || pyEqStr v "blue-green"

/-- `ConfigManager._validate_environment` (config.py lines 124-147). -/
def validateEnvironment (envName : String) (envConfig : PyVal) : List String :=
  match envConfig with
  | PyVal.dict ec =>
      let e1 : List String :=
        match findKey "compose_file" ec with
        | Option.none => []
        | some (PyVal.str _) => []
        | some _ => ["Environment '" ++ envName ++ "' compose_file must be a string"]
      let e2 : List String :=
        match findKey "build_options" ec with
        | Option.none => []
        | some (PyVal.list opts) =>
            -- the `for option in ...` loop errors once and breaks at the
            -- first non-string entry
            if opts.all (fun o => isStrVal o) then []
            else ["Environment '" ++ envName ++ "' build_options must contain strings"]
        | some _ => ["Environment '" ++ envName ++ "' build_options must be a list"]
      e1 ++ e2
  | _ => ["Environment '" ++ envName ++ "' must be a dictionary"]
where
  /-- `isinstance(option, str)`. -/
  isStrVal : PyVal → Bool
    | PyVal.str _ => true
    | _ => false

/-- `ConfigManager.validate` (config.py lines 81-122): structural checks,
collected as `(errors, warnings)`, never thrown. -/
def validate (config : PyDict) : List String × List String :=
  let envPart : List String × List String :=
    match findKey "environments" config with
    | Option.none => ([], ["No environments defined in config"])
    | some (PyVal.dict envs) =>
        (envs.foldl (fun acc kv => acc ++ validateEnvironment kv.1 kv.2) [], [])
    | some _ => (["environments must be a dictionary"], [])
  let depPart : List String × List String :=
    match findKey "deployment" config with
    | Option.none => ([], [])
    | some (PyVal.dict dep) =>
        let strategy := (findKey "strategy" dep).getD (PyVal.str "recreate")
        if strategyKnown strategy then ([], [])
        else ([], ["Unknown deployment strategy '" ++ pyStr strategy ++ "'"])
    | some _ => (["deployment must be a dictionary"], [])
  let monPart : List String × List String :=
    match findKey "monitoring" config with
    | Option.none => ([], [])
    | some (PyVal.dict mon) =>
        let a : List String :=
          match findKey "enabled" mon with
          | Option.none => []
          | some (PyVal.bool _) => []
          | some _ => ["monitoring.enabled must be a boolean"]
        let b : List String :=
          match findKey "interval" mon with
          | Option.none => []
          | some v =>
              -- `not isinstance(interval, int) or interval <= 0`
              -- (`bool` is an `int` subclass in Python)
              match asPyNumber v with
              | Option.none => ["monitoring.interval must be a positive integer"]
              | some n =>
                  if n ≤ 0 then ["monitoring.interval must be a positive integer"]
                  else []
        (a ++ b, [])
    | some _ => (["monitoring must be a dictionary"], [])
  (envPart.1 ++ depPart.1 ++ monPart.1, envPart.2 ++ depPart.2 ++ monPart.2)

end ConfigManager

/-!
## `DockerComposeManager` (src/core/manager.py): constructor and
`switch_environment`
-/

namespace DockerComposeManager

/-- Python `needle in haystack` for strings: substring containment
(`"" in s` is `True`). -/
def strContains (haystack needle : String) : Bool :=
  if needle = "" then true else (haystack.splitOn needle).length ≥ 2

/-- Python `key in v`: key lookup for dicts, `==`-scan for lists, substring
test for strings; `TypeError` for the other (non-container) values. -/
def pyContains (v : PyVal) (key : String) : Except String Bool :=
  match v with
  | PyVal.dict d => Except.ok (findKey key d).isSome
  | PyVal.list xs => Except.ok (xs.any (fun x => pyEqStr x key))
  | PyVal.str s => Except.ok (strContains s key)
  | _ => Except.error "TypeError"

/-- Python `v[key]` with a string key: dict lookup (`KeyError` when absent);
`TypeError` for every non-dict value. -/
def pyIndex (v : PyVal) (key : String) : Except String PyVal :=
  match v with
  | PyVal.dict d =>
      match findKey key d with
      | some x => Except.ok x
      | Option.none => Except.error "KeyError"
  | _ => Except.error "TypeError"

/-- The synthetic default environment config returned by
`get_environment_config` when the name is not declared. -/
def defaultEnvConfig : PyVal :=
  PyVal.dict [("compose_file", PyVal.str "docker-compose.yml")]

/-- `ConfigManager.get_environment_config` (config.py lines 149-153):
`if 'environments' in self.config and environment in self.config['environments']:
return self.config['environments'][environment]` else the synthetic default.
The `Except` carries the Python exception class name when the membership test
or the indexing raises (non-mapping `environments` value). -/
def getEnvironmentConfigE (config : PyDict) (env : String) : Except String PyVal :=
  match findKey "environments" config with
  | Option.none => Except.ok defaultEnvConfig
  | some envsV =>
      match pyContains envsV env with
      | Except.error e => Except.error e
      | Except.ok true => pyIndex envsV env
      | Except.ok false => Except.ok defaultEnvConfig

/-- The manager state after a successful `__init__`: the merged configuration,
the current environment selector, and the resolved environment config. -/
structure Manager where
  config : PyDict
  environment : String
  currentEnvConfig : PyVal

/-- `ConfigManager.load_config` (config.py lines 20-30) after YAML parsing:
a present, parsed settings tree is merged with the defaults; an absent
config file yields the bare defaults. -/
def configOfLoaded (loaded : Option PyDict) : PyDict :=
  match loaded with
  | some c => ConfigManager.mergeWithDefaults c
  | Option.none => ConfigManager.getDefaults

/-- `environment or os.getenv('DCM_ENV', 'dev')` (manager.py line 24):
`envArg` is the `environment` constructor parameter, `dcmEnv` the value of
the `DCM_ENV` process variable; Python treats `None` and `""` as falsy. -/
def resolvedEnvName (envArg dcmEnv : Option String) : String :=
  match envArg with
  | some e => if e = "" then dcmEnv.getD "dev" else e
  | Option.none => dcmEnv.getD "dev"

/-- `DockerComposeManager.__init__` (manager.py lines 22-33).  The
constructor resolves the current environment config (which raises
`TypeError` when `environments` holds a non-container value) and then
validates: any validation error raises `DockerComposeError`; warnings are
only printed and do not block construction. -/
def mk (loaded : Option PyDict) (envArg : Option String) (dcmEnv : Option String) :
    Except String Manager :=
  match getEnvironmentConfigE (configOfLoaded loaded) (resolvedEnvName envArg dcmEnv) with
  | Except.error e => Except.error e
  | Except.ok envCfg =>
      if (ConfigManager.validate (configOfLoaded loaded)).1 = [] then
        Except.ok ⟨configOfLoaded loaded, resolvedEnvName envArg dcmEnv, envCfg⟩
      else Except.error "DockerComposeError"

/-- `DockerComposeManager.switch_environment` (manager.py lines 146-154).
Returns the manager state at method exit together with the outcome; on the
undeclared-environment path the method raises before touching any field, so
the state component equals the input.  (In the declared path Python assigns
`self.environment` first and resolves the environment config second; the
intermediate state is kept faithful in case the resolution raises.) -/
def switchEnvironment (m : Manager) (env : String) :
    Manager × Except String Unit :=
  match pyContains (pyGetD m.config "environments" (PyVal.dict [])) env with
  | Except.error _ => (m, Except.error "TypeError")
  | Except.ok true =>
      let m1 : Manager := { m with environment := env }
      match getEnvironmentConfigE m.config env with
      | Except.ok v => ({ m1 with currentEnvConfig := v }, Except.ok ())
      | Except.error e => (m1, Except.error e)
  | Except.ok false => (m, Except.error "EnvironmentError")

end DockerComposeManager

/-!
### Claims C9 and C10
-/

namespace DockerComposeManager

/-- Every top-level default section survives the merge: its key is present in
the merged configuration (specialised from the saturation lemmas). -/
theorem environments_isSome (loaded : Option PyDict) :
    (findKey "environments" (configOfLoaded loaded)).isSome := by
  cases loaded with
  | none => decide
  | some c =>
      have hmem : ("environments",
          PyVal.dict [("dev", PyVal.dict [("compose_file", PyVal.str "docker-compose.yml")])])
          ∈ ConfigManager.getDefaults :=
        List.mem_cons_of_mem _ (List.mem_cons_self _ _)
      have hsat := ConfigManager.foldl_sat_all
        ConfigManager.defaults_keys_pairwise c _ hmem
      obtain ⟨cur, hc, -⟩ := hsat
      show (findKey "environments" (ConfigManager.getDefaults.foldl ConfigManager.mergeStep c)).isSome
      rw [hc]
      rfl

/-- If validation reports no error, the `environments` section (when present)
is a dictionary. -/
theorem environments_dict_of_valid {config : PyDict}
    (hv : (ConfigManager.validate config).1 = []) {ev : PyVal}
    (h : findKey "environments" config = some ev) : ∃ es, ev = PyVal.dict es := by
  unfold ConfigManager.validate at hv
  rw [h] at hv
  cases ev with
  | dict es => exact ⟨es, rfl⟩
  | str s => simp at hv
  | int n => simp at hv
  | bool b => simp at hv
  | pynone => simp at hv
  | list xs => simp at hv

/-- On an error-free configuration, resolving the environment config never
raises. -/
theorem getEnvironmentConfigE_ok_of_valid {config : PyDict}
    (hv : (ConfigManager.validate config).1 = [])
    (hpres : (findKey "environments" config).isSome) (env : String) :
    ∃ v, getEnvironmentConfigE config env = Except.ok v := by
  rcases h : findKey "environments" config with _ | ev
  · rw [h] at hpres; cases hpres
  · obtain ⟨es, rfl⟩ := environments_dict_of_valid hv h
    unfold getEnvironmentConfigE
    rw [h]
    rcases hf : findKey env es with _ | x
    · exact ⟨defaultEnvConfig, by simp [pyContains, hf]⟩
    · exact ⟨x, by simp [pyContains, hf, pyIndex]⟩

end DockerComposeManager

/-- **C10 (amended).** Every successfully constructed `DockerComposeManager`
holds a configuration whose `validate()` reports an empty error list, and an
error-free validation (warnings allowed) lets construction succeed — so no
lifecycle operation ever runs against a configuration with validation
errors.  (The original claim's mechanism — "raises `DockerComposeError`
whenever validation yields any error" — fails when `environments` holds a
non-container value: environment resolution raises `TypeError` before
validation runs; see the counterexample.) -/
theorem constructor_validates (loaded : Option PyDict) (envArg dcmEnv : Option String) :
    (∀ m, DockerComposeManager.mk loaded envArg dcmEnv = Except.ok m →
      (ConfigManager.validate m.config).1 = []) ∧
    ((ConfigManager.validate (DockerComposeManager.configOfLoaded loaded)).1 = [] →
      ∃ m, DockerComposeManager.mk loaded envArg dcmEnv = Except.ok m) := by
  constructor
  · intro m hm
    unfold DockerComposeManager.mk at hm
    split at hm
    · exact Except.noConfusion hm
    · split at hm
      next hv =>
        injection hm with h
        subst h
        exact hv
      next hv => exact Except.noConfusion hm
  · intro hv
    obtain ⟨v, hg⟩ := DockerComposeManager.getEnvironmentConfigE_ok_of_valid hv
      (DockerComposeManager.environments_isSome loaded)
      (DockerComposeManager.resolvedEnvName envArg dcmEnv)
    refine ⟨⟨DockerComposeManager.configOfLoaded loaded,
        DockerComposeManager.resolvedEnvName envArg dcmEnv, v⟩, ?_⟩
    unfold DockerComposeManager.mk
    rw [hg]
    simp [hv]

/-- **C10 witness.** An empty user configuration merges to the defaults,
validates with no errors, and the constructor succeeds on it. -/
theorem constructor_validates_witness :
    ∃ m, DockerComposeManager.mk (some []) Option.none Option.none = Except.ok m :=
  (constructor_validates (some []) Option.none Option.none).2 (by decide)

/-- **C10 counterexample.** With `environments: 5` in the loaded settings,
the merged configuration has validation errors, yet the constructor raises
`TypeError` (from the `environment in self.config['environments']` membership
test in `get_environment_config`, evaluated at manager.py line 25 before
validation at line 28) — not `DockerComposeError` as the claim states. -/
theorem constructor_typeerror_counterexample :
    DockerComposeManager.mk (some [("environments", PyVal.int 5)])
        Option.none Option.none = Except.error "TypeError" ∧
    (ConfigManager.validate (DockerComposeManager.configOfLoaded
        (some [("environments", PyVal.int 5)]))).1 ≠ [] := by
  constructor
  · rfl
  · decide

/-- **C9.** Switching to an environment name that is not declared in the
settings' `environments` mapping raises `EnvironmentError` and leaves the
manager state — the current environment selector and the resolved environment
config — exactly as it was. -/
theorem switch_environment_undeclared (m : DockerComposeManager.Manager)
    (env : String) (es : PyDict)
    (h1 : pyGetD m.config "environments" (PyVal.dict []) = PyVal.dict es)
    (h2 : findKey env es = Option.none) :
    DockerComposeManager.switchEnvironment m env =
      (m, Except.error "EnvironmentError") := by
  unfold DockerComposeManager.switchEnvironment
  rw [h1]
  simp [DockerComposeManager.pyContains, h2]

/-- **C9 witness.** On the default configuration (which declares only `dev`),
switching to `prod` is rejected with `EnvironmentError` and the manager state
is unchanged. -/
theorem switch_environment_undeclared_witness :
    DockerComposeManager.switchEnvironment
        ⟨ConfigManager.getDefaults, "dev", DockerComposeManager.defaultEnvConfig⟩ "prod" =
      (⟨ConfigManager.getDefaults, "dev", DockerComposeManager.defaultEnvConfig⟩,
        Except.error "EnvironmentError") :=
  switch_environment_undeclared _ "prod"
    [("dev", PyVal.dict [("compose_file", PyVal.str "docker-compose.yml")])] rfl rfl

/-!
## `StatusMonitor.monitor_services` (src/monitoring/health.py lines 92-114)

The loop runs under a simulated clock: `time.time() - start_time` is tracked
as `elapsed`, and each `time.sleep(interval)` advances it by `interval`.
Status sampling and report display have no bearing on the loop's control
flow, so a tick is recorded only as an incremented report count.
-/

namespace StatusMonitor

/-- Outcome of `monitor_services`. -/
inductive MonitorResult where
  | notEnabled
  /-- The loop broke out of `while True` by itself after emitting the given
  number of status reports (no external cancellation). -/
  | finished (reports : Nat)
  /-- The loop was still running when the simulation fuel ran out (the
  unbounded `duration=None`/`duration=0` mode, or fuel too small). -/
  | runningBeyondFuel
  /-- `time.sleep` was reached with a non-numeric `interval` value. -/
  | typeError
deriving DecidableEq

/-- `if duration and (time.time() - start_time) >= duration: break` —
`None` and `0` are falsy, so they never break. -/
def durCheck (duration : Option Int) (elapsed : Int) : Bool :=
  match duration with
  | some d => d ≠ 0 && elapsed ≥ d
  | Option.none => false

/-- The `while True` body: check the duration, sample and display a report,
sleep `interval` (advancing the simulated clock). -/
def monitorLoop (interval : Int) (duration : Option Int) :
    Nat → Int → Nat → MonitorResult
  | 0, _, _ => MonitorResult.runningBeyondFuel
  | fuel + 1, elapsed, count =>
      if durCheck duration elapsed then MonitorResult.finished count
      else monitorLoop interval duration fuel (elapsed + interval) (count + 1)

/-- `StatusMonitor.monitor_services` (health.py lines 92-114): returns
immediately when monitoring is not enabled; otherwise reads
`interval = monitoring_config.get('interval', 60)` and runs the polling
loop.  `mcfg` is the stored `monitoring` section (`config.get('monitoring',
{})`). -/
def monitorServices (mcfg : PyDict) (duration : Option Int) (fuel : Nat) :
    MonitorResult :=
  if ¬ pyTruthy (pyGetD mcfg "enabled" (PyVal.bool false)) then
    MonitorResult.notEnabled
  else
    match asPyNumber (pyGetD mcfg "interval" (PyVal.int 60)) with
    | Option.none => MonitorResult.typeError
    | some interval => monitorLoop interval duration fuel 0 0

end StatusMonitor

/-- **C6.** With monitoring enabled, `interval = 1` and `duration = 3`, under
the simulated clock the loop emits exactly 3 status reports and then breaks
out of `while True` on its own (any fuel of at least 4 ticks observes the
termination). -/
theorem monitor_three_reports (mcfg : PyDict) (fuel : Nat)
    (hen : pyTruthy (pyGetD mcfg "enabled" (PyVal.bool false)) = true)
    (hint : pyGetD mcfg "interval" (PyVal.int 60) = PyVal.int 1)
    (hfuel : 4 ≤ fuel) :
    StatusMonitor.monitorServices mcfg (some 3) fuel =
      StatusMonitor.MonitorResult.finished 3 := by
  obtain ⟨k, rfl⟩ : ∃ k, fuel = k + 4 := ⟨fuel - 4, by omega⟩
  unfold StatusMonitor.monitorServices
  rw [hint, hen]
  show StatusMonitor.monitorLoop 1 (some 3) (k + 4) 0 0 =
    StatusMonitor.MonitorResult.finished 3
  rw [show k + 4 = (k + 3) + 1 by omega, StatusMonitor.monitorLoop]
  rw [show k + 3 = (k + 2) + 1 by omega, StatusMonitor.monitorLoop]
  rw [show k + 2 = (k + 1) + 1 by omega, StatusMonitor.monitorLoop]
  rw [StatusMonitor.monitorLoop]
  norm_num [StatusMonitor.durCheck]

/-- **C6 witness.** A monitoring section with `enabled: true, interval: 1`
and a fuel of 10 ticks: exactly 3 reports are emitted. -/
theorem monitor_three_reports_witness :
    StatusMonitor.monitorServices
        [("enabled", PyVal.bool true), ("interval", PyVal.int 1)] (some 3) 10 =
      StatusMonitor.MonitorResult.finished 3 :=
  monitor_three_reports _ 10 rfl rfl (by omega)

/-!
## `BackupManager` (src/deployment/backup.py)

The backup directory is modelled as a listing: a list of file names (in
`os.listdir` order) paired with what opening and JSON-parsing the file
yields.  Metadata timestamps (ISO-8601 strings of a fixed format) are
modelled by the integer time points they denote — lexicographic comparison
of such strings agrees with comparison of these integers.
-/

/-- Python `s.endswith(suffix)`, implemented over the character list so that
concrete instances reduce inside the kernel. -/
def strEndsWith (s suffix : String) : Bool :=
  suffix.data.isSuffixOf s.data

/-- If `pat` is a prefix of the list, return the rest after it. -/
def dropPrefixChars : List Char → List Char → Option (List Char)
  | [], l => some l
  | _ :: _, [] => Option.none
  | p :: ps, c :: cs => if p = c then dropPrefixChars ps cs else Option.none

/-- Fuel-bounded body of Python `s.replace(pat, repl)`: all non-overlapping
occurrences replaced left to right.  Every step consumes at least one
character, so fuel `= length + 1` always suffices.  (The call sites only use
the non-empty literal `"_metadata.json"`; an empty pattern is treated as
matching nothing.) -/
def replaceGo (pat repl : List Char) : Nat → List Char → List Char
  | _, [] => []
  | 0, l => l
  | fuel + 1, c :: cs =>
      match pat with
      | [] => c :: cs
      | _ :: _ =>
          match dropPrefixChars pat (c :: cs) with
          | some rest => repl ++ replaceGo pat repl fuel rest
          | Option.none => c :: replaceGo pat repl fuel cs

/-- Python `s.replace(pat, repl)`. -/
def pyReplace (s pat repl : String) : String :=
  ⟨replaceGo pat.data repl.data (s.data.length + 1) s.data⟩

namespace BackupManager

/-- What opening a file of the backup directory yields. -/
inductive FileContent where
  /-- A JSON dictionary with a parseable `timestamp` field (the modelled
  time point, in seconds). -/
  | metaOk (ts : Int)
  /-- A JSON value that loads fine but on which the `timestamp` access
  raises (`KeyError` on a dict without the field, `TypeError` on a
  non-dict). -/
  | metaNoTs
  /-- A file `open`/`json.load` raises on (unreadable or corrupt JSON). -/
  | badJson
  /-- A non-metadata artifact (compose/env/state payload). -/
  | artifact
deriving DecidableEq

/-- The state of the backup directory: file names with their contents,
in listing order. -/
abbrev FS := List (String × FileContent)

/-- `open` + `json.load` the named file in the current directory state:
`none` when the file is absent or any step raises. -/
def findFile (name : String) : FS → Option FileContent
  | [] => Option.none
  | (n, c) :: rest => if n = name then some c else findFile name rest

/-- Remove the named file (`os.remove`). -/
def removeFile (name : String) : FS → FS
  | [] => []
  | (n, c) :: rest =>
      if n = name then rest else (n, c) :: removeFile name rest

/-- `BackupManager.create_backup` (backup.py lines 22-72).
`bcfgV` is the stored `backup` section (`config.get('backup', {})`);
`ioFails` models an I/O exception inside the `try` block (file copies,
state dump, metadata write); `nowStamp` is the formatted timestamp used for
the default name.  The result is the returned string, or `none` when an
exception escapes the method (`.get` on a non-mapping section, or
`os.makedirs` on a non-string destination — both outside the `try`). -/
def createBackup (bcfgV : PyVal) (ioFails : Bool) (nowStamp : String)
    (backupName : Option String) : Option String :=
  match bcfgV with
  | PyVal.dict bd =>
      if ¬ pyTruthy ((findKey "enabled" bd).getD (PyVal.bool false)) then
        some "Backup is not enabled"
      else
        -- `backup_name = backup_name or f"backup_{timestamp}"`
        let name :=
          match backupName with
          | some n => if n = "" then "backup_" ++ nowStamp else n
          | Option.none => "backup_" ++ nowStamp
        match (findKey "destination" bd).getD (PyVal.str "./backups") with
        | PyVal.str dir =>
            if ioFails then some "" else some (dir ++ "/" ++ name)
        | _ => Option.none
  | _ => Option.none

/-- The record-collection loop of `list_backups` (backup.py lines 81-90):
for each `*_metadata.json` listing entry, load the metadata (skipping
entries whose open/parse raises), tag it with
`path = backup_dir + "/" + name without the suffix`, and append.  The
second component is the record's `timestamp` value (`none` when the loaded
metadata has no usable timestamp — the record is still appended). -/
def collectStep (backupDir : String) (acc : List (String × Option Int))
    (entry : String × FileContent) : List (String × Option Int) :=
  if strEndsWith entry.1 "_metadata.json" then
    match entry.2 with
    | FileContent.metaOk ts =>
        acc ++ [(backupDir ++ "/" ++ pyReplace entry.1 "_metadata.json" "", some ts)]
    | FileContent.metaNoTs =>
        acc ++ [(backupDir ++ "/" ++ pyReplace entry.1 "_metadata.json" "", Option.none)]
    | FileContent.badJson => acc
    | FileContent.artifact => acc
  else acc

def collectRecords (fs : FS) (backupDir : String) : List (String × Option Int) :=
  fs.foldl (collectStep backupDir) []

/-- Stable insertion for a descending (newest-first) sort by timestamp,
matching Python's stable `list.sort(key=..., reverse=True)`. -/
def insertDesc (x : String × Int) : List (String × Int) → List (String × Int)
  | [] => [x]
  | y :: ys => if y.2 ≤ x.2 then x :: y :: ys else y :: insertDesc x ys

/-- Stable descending sort by timestamp. -/
def sortDesc : List (String × Int) → List (String × Int)
  | [] => []
  | x :: xs => insertDesc x (sortDesc xs)

/-- `BackupManager.list_backups` (backup.py lines 74-94): empty when the
backup directory does not exist; otherwise collect the records and sort
newest-first.  `backups.sort(key=lambda x: x['timestamp'], reverse=True)`
evaluates the key on every collected record, so a record whose metadata has
no usable `timestamp` raises `KeyError` out of the method. -/
def listBackups (fs : FS) (dirExists : Bool) (backupDir : String) :
    Except String (List (String × Int)) :=
  if ¬ dirExists then Except.ok []
  else
    let recs := collectRecords fs backupDir
    if recs.all (fun r => r.2.isSome) then
      Except.ok (sortDesc (recs.filterMap (fun r => r.2.map (fun t => (r.1, t)))))
    else Except.error "KeyError"

/-- The artifact-removal loop of `cleanup_old_backups` (backup.py lines
152-158): for each suffix, remove the file if it exists, incrementing the
count once per removed file. -/
def removeArtifacts (base : String) (st : Nat × FS) : Nat × FS :=
  ["_compose.yml", "_env", "_state.json", "_metadata.json"].foldl
    (fun acc suffix =>
      let p := base ++ suffix
      if (findFile p acc.2).isSome then (acc.1 + 1, removeFile p acc.2) else acc)
    st

/-- `BackupManager.cleanup_old_backups` (backup.py lines 132-168).
`bcfg` is the `backup` section, `now` the current time point;
`retention <= 0` disables the sweep.  The iteration list is the directory
listing taken once up front; existence checks and opens run against the
directory state as it shrinks.  Result: `(files removed, final state)`;
`none` models the `TypeError` Python raises when comparing a non-numeric
`retention` value with `0`. -/
def cleanupOldBackups (bcfg : PyDict) (fs : FS) (now : Int) :
    Option (Nat × FS) :=
  match asPyNumber (pyGetD bcfg "retention" (PyVal.int 30)) with
  | Option.none => Option.none
  | some retention =>
      if retention ≤ 0 then some (0, fs)
      else
        let cutoff := now - retention * 86400
        some ((fs.map (fun e => e.1)).foldl
          (fun (acc : Nat × FS) item =>
            if strEndsWith item "_metadata.json" then
              match findFile item acc.2 with
              | some (FileContent.metaOk ts) =>
                  if ts < cutoff then
                    removeArtifacts (pyReplace item "_metadata.json" "") acc
                  else acc
              | _ => acc  -- open/parse/timestamp failures: `except: continue`
            else acc)
          (0, fs))

end BackupManager

/-!
### Claims C2, C5, C8
-/

namespace BackupManager

theorem mem_insertDesc {x y : String × Int} {l : List (String × Int)} :
    y ∈ insertDesc x l ↔ y = x ∨ y ∈ l := by
  induction l with
  | nil => simp [insertDesc]
  | cons z zs ih =>
      by_cases h : z.2 ≤ x.2
      · rw [insertDesc, if_pos h]
        simp [or_left_comm, or_comm]
      · rw [insertDesc, if_neg h]
        simp [ih, or_left_comm, or_comm]

theorem insertDesc_sorted {x : String × Int} {l : List (String × Int)}
    (h : l.Pairwise (fun a b => b.2 ≤ a.2)) :
    (insertDesc x l).Pairwise (fun a b => b.2 ≤ a.2) := by
  induction l with
  | nil => simp [insertDesc]
  | cons z zs ih =>
      rcases List.pairwise_cons.mp h with ⟨hz, hzs⟩
      by_cases hc : z.2 ≤ x.2
      · rw [insertDesc, if_pos hc]
        refine List.pairwise_cons.mpr ⟨?_, h⟩
        intro b hb
        rcases List.mem_cons.mp hb with rfl | hb2
        · exact hc
        · exact le_trans (hz b hb2) hc
      · rw [insertDesc, if_neg hc]
        refine List.pairwise_cons.mpr ⟨?_, ih hzs⟩
        intro b hb
        rcases mem_insertDesc.mp hb with rfl | hb2
        · omega
        · exact hz b hb2

theorem insertDesc_perm (x : String × Int) (l : List (String × Int)) :
    List.Perm (insertDesc x l) (x :: l) := by
  induction l with
  | nil => exact List.Perm.refl _
  | cons z zs ih =>
      by_cases h : z.2 ≤ x.2
      · rw [insertDesc, if_pos h]
      · rw [insertDesc, if_neg h]
        exact (List.Perm.cons z ih).trans (List.Perm.swap x z zs)

theorem sortDesc_perm (l : List (String × Int)) : List.Perm (sortDesc l) l := by
  induction l with
  | nil => exact List.Perm.refl _
  | cons x xs ih =>
      rw [sortDesc]
      exact (insertDesc_perm x (sortDesc xs)).trans (List.Perm.cons x ih)

theorem sortDesc_sorted (l : List (String × Int)) :
    (sortDesc l).Pairwise (fun a b => b.2 ≤ a.2) := by
  induction l with
  | nil => simp [sortDesc]
  | cons x xs ih => rw [sortDesc]; exact insertDesc_sorted ih

theorem collect_all_some {dir : String} :
    ∀ (fs : FS),
      (∀ e ∈ fs, strEndsWith e.1 "_metadata.json" = true → e.2 ≠ FileContent.metaNoTs) →
      ∀ acc : List (String × Option Int), (∀ r ∈ acc, r.2.isSome) →
      ∀ r ∈ fs.foldl (collectStep dir) acc, r.2.isSome := by
  intro fs
  induction fs with
  | nil => intro _ acc hacc r hr; exact hacc r hr
  | cons e rest ih =>
      intro h acc hacc r hr
      rw [List.foldl_cons] at hr
      refine ih (fun f hf => h f (List.mem_cons_of_mem e hf)) _ ?_ r hr
      intro s hs
      unfold collectStep at hs
      by_cases hend : strEndsWith e.1 "_metadata.json" = true
      · rw [if_pos hend] at hs
        cases hc : e.2 with
        | metaOk ts =>
            rw [hc] at hs
            rcases List.mem_append.mp hs with h1 | h2
            · exact hacc s h1
            · rcases List.mem_singleton.mp h2 with rfl
              rfl
        | metaNoTs => exact absurd hc (h e (List.mem_cons_self e rest) hend)
        | badJson => rw [hc] at hs; exact hacc s hs
        | artifact => rw [hc] at hs; exact hacc s hs
      · rw [if_neg hend] at hs
        exact hacc s hs

end BackupManager

/-- **C8 counterexample.** A backup directory holding one metadata file whose
JSON parses but contains no `timestamp` field: the record is collected (not
skipped), and `list_backups` raises `KeyError` from the sort's key function
— refuting "listing never raises an exception because of a bad entry". -/
theorem list_backups_keyerror_counterexample :
    BackupManager.listBackups [("b_metadata.json", BackupManager.FileContent.metaNoTs)]
        true "./backups" = Except.error "KeyError" := by
  rfl

/-- **C8 (amended).** `list_backups` never raises on entries whose metadata
fails to open or parse — they are skipped — and, provided every collected
metadata record carries a usable `timestamp` (the `KeyError` case of the
counterexample excluded), it returns the records sorted newest-first (their
timestamps non-increasing) and the result is exactly the collected records
(a permutation of them, i.e. nothing but the sort is applied). -/
theorem list_backups_sorted (fs : BackupManager.FS) (dir : String)
    (h : ∀ e ∈ fs, strEndsWith e.1 "_metadata.json" = true →
      e.2 ≠ BackupManager.FileContent.metaNoTs) :
    ∃ l, BackupManager.listBackups fs true dir = Except.ok l ∧
      l.Pairwise (fun a b => b.2 ≤ a.2) ∧
      l.Perm ((BackupManager.collectRecords fs dir).filterMap
        (fun r => r.2.map (fun t => (r.1, t)))) := by
  have hall : ∀ r ∈ BackupManager.collectRecords fs dir, r.2.isSome :=
    BackupManager.collect_all_some fs h [] (by intro r hr; cases hr)
  refine ⟨BackupManager.sortDesc ((BackupManager.collectRecords fs dir).filterMap
    (fun r => r.2.map (fun t => (r.1, t)))), ?_, ?_, ?_⟩
  · unfold BackupManager.listBackups
    rw [if_neg (by simp)]
    rw [if_pos (List.all_eq_true.mpr (fun r hr => hall r hr))]
  · exact BackupManager.sortDesc_sorted _
  · exact BackupManager.sortDesc_perm _

/-- **C8 witness.** A directory with a corrupt-JSON entry, two good records
(timestamps 100 and 200) and an unrelated artifact: listing succeeds, sorted
newest-first, returning exactly the two good records. -/
theorem list_backups_sorted_witness :
    ∃ l, BackupManager.listBackups
        [("a_metadata.json", BackupManager.FileContent.metaOk 100),
         ("broken_metadata.json", BackupManager.FileContent.badJson),
         ("b_metadata.json", BackupManager.FileContent.metaOk 200),
         ("a_compose.yml", BackupManager.FileContent.artifact)]
        true "./backups" = Except.ok l ∧
      l.Pairwise (fun a b => b.2 ≤ a.2) ∧
      l.Perm ((BackupManager.collectRecords
        [("a_metadata.json", BackupManager.FileContent.metaOk 100),
         ("broken_metadata.json", BackupManager.FileContent.badJson),
         ("b_metadata.json", BackupManager.FileContent.metaOk 200),
         ("a_compose.yml", BackupManager.FileContent.artifact)] "./backups").filterMap
          (fun r => r.2.map (fun t => (r.1, t)))) :=
  list_backups_sorted _ "./backups" (by decide)

namespace BackupManager

/-- A backup section configured with the spec's sweep scenario:
`retention: 30` days. -/
def sweepConfig : PyDict :=
  [("enabled", PyVal.bool true), ("destination", PyVal.str "./backups"),
   ("retention", PyVal.int 30)]

/-- Three full backup records (4 artifact files each) aged 40, 100 and 10
days at `now = 0` (timestamps in seconds). -/
def threeRecordListing : FS :=
  [ ("b40_compose.yml", FileContent.artifact),
    ("b40_env", FileContent.artifact),
    ("b40_state.json", FileContent.artifact),
    ("b40_metadata.json", FileContent.metaOk (-3456000)),
    ("b100_compose.yml", FileContent.artifact),
    ("b100_env", FileContent.artifact),
    ("b100_state.json", FileContent.artifact),
    ("b100_metadata.json", FileContent.metaOk (-8640000)),
    ("b10_compose.yml", FileContent.artifact),
    ("b10_env", FileContent.artifact),
    ("b10_state.json", FileContent.artifact),
    ("b10_metadata.json", FileContent.metaOk (-864000)) ]

/-- What survives the 30-day sweep of `threeRecordListing`: the 10-day-old
record's artifacts, untouched. -/
def youngOnlyListing : FS :=
  [ ("b10_compose.yml", FileContent.artifact),
    ("b10_env", FileContent.artifact),
    ("b10_state.json", FileContent.artifact),
    ("b10_metadata.json", FileContent.metaOk (-864000)) ]

end BackupManager

/-- **C5 counterexample.** On three full records aged 10/40/100 days with
`retention: 30`, the sweep removes exactly the two older records' artifacts
but reports 8 — it counts removed *files* (4 per record), not records — so
the claimed "removed count of 2" is false. -/
theorem cleanup_counts_files_counterexample :
    BackupManager.cleanupOldBackups BackupManager.sweepConfig
        BackupManager.threeRecordListing 0 =
      some (8, BackupManager.youngOnlyListing) ∧ (8 : Nat) ≠ 2 :=
  ⟨by decide, by decide⟩

/-- **C5 (amended).** `retention_days <= 0` disables the sweep entirely — it
removes nothing and returns 0 regardless of record ages — and with
`retention = 30` on three full records aged 10/40/100 days the sweep removes
exactly the artifacts of the two records older than 30 days, leaves the
younger record's artifacts untouched, and reports the number of removed
files: 8 (four per swept record), not 2. -/
theorem cleanup_retention_semantics :
    (∀ (bcfg : PyDict) (fs : BackupManager.FS) (now n : Int),
        asPyNumber (pyGetD bcfg "retention" (PyVal.int 30)) = some n → n ≤ 0 →
        BackupManager.cleanupOldBackups bcfg fs now = some (0, fs)) ∧
    BackupManager.cleanupOldBackups BackupManager.sweepConfig
        BackupManager.threeRecordListing 0 =
      some (8, BackupManager.youngOnlyListing) := by
  constructor
  · intro bcfg fs now n hn hle
    unfold BackupManager.cleanupOldBackups
    rw [hn]
    simp [hle]
  · decide

/-- **C5 witness.** `retention: 0` on an empty directory: the sweep is a
no-op returning 0. -/
theorem cleanup_retention_semantics_witness :
    BackupManager.cleanupOldBackups [("retention", PyVal.int 0)] [] 5 =
      some (0, []) :=
  cleanup_retention_semantics.1 [("retention", PyVal.int 0)] [] 5 0 rfl (by norm_num)

/-- **C2 counterexample.** With the `backup` section empty (so
`backup.enabled` is absent), `create_backup` returns the string
`"Backup is not enabled"` — a non-empty (and truthy) sentinel — not the
empty-string sentinel `""` the claim states. -/
theorem create_backup_disabled_counterexample :
    BackupManager.createBackup (PyVal.dict []) false "20240101_000000" Option.none =
      some "Backup is not enabled" ∧ "Backup is not enabled" ≠ "" :=
  ⟨rfl, by decide⟩

/-- **C2 (amended).** Whenever backups are disabled by policy
(`backup.enabled` absent or `false`), for every optional name argument
`create_backup` returns the fixed string `"Backup is not enabled"` before
touching the filesystem — an early sentinel return, not a hard failure and
not an exception (but a truthy value, not `""`). -/
theorem create_backup_disabled (bd : PyDict) (ioFails : Bool)
    (nowStamp : String) (nm : Option String)
    (h : findKey "enabled" bd = Option.none ∨
      findKey "enabled" bd = some (PyVal.bool false)) :
    BackupManager.createBackup (PyVal.dict bd) ioFails nowStamp nm =
      some "Backup is not enabled" := by
  rcases h with h | h <;> simp [BackupManager.createBackup, h, pyTruthy]

/-- **C2 witness.** The empty backup section with an explicit name argument. -/
theorem create_backup_disabled_witness :
    BackupManager.createBackup (PyVal.dict []) false "ts" (some "pre_deploy") =
      some "Backup is not enabled" :=
  create_backup_disabled [] false "ts" (some "pre_deploy") (Or.inl rfl)

/-!
## `DeploymentManager` (src/deployment/strategies.py)

The executor boundary (`docker_manager.execute_command` and the
`pull`/`stop`/`build`/`start` wrappers, manager.py lines 47-144) is modelled
by a response stream: each call consumes the next response, `none` standing
for a failed command (Python `None`) and `some s` for its captured stdout.
A trace of events records which operations ran, in order.
-/

namespace DeploymentManager

/-- Python truthiness of an `execute_command` result (`Optional[str]`):
`None` and `""` are falsy. -/
def pyTruthyOpt : Option String → Bool
  | Option.none => false
  | some s => s ≠ ""

/-- Python `for x in v`: iterable values yield their element sequence
(characters of a string, elements of a list, keys of a dict); iterating any
other value raises `TypeError` (`none`). -/
def pyIterate : PyVal → Option (List PyVal)
  | PyVal.list xs => some xs
  | PyVal.str s => some (s.data.map (fun c => PyVal.str (String.singleton c)))
  | PyVal.dict d => some (d.map (fun e => PyVal.str e.1))
  | _ => Option.none

/-- The executor world: the stream of pending command responses, plus a flag
for whether the file operations inside `create_backup`'s `try` block raise. -/
structure World where
  responses : List (Option String)
  backupIoFails : Bool
deriving DecidableEq

/-- Consume the next executor response (an exhausted stream keeps answering
`none`, i.e. failures). -/
def pop (w : World) : Option String × World :=
  match w.responses with
  | [] => (Option.none, w)
  | r :: rs => (r, { w with responses := rs })

/-- Observable events of a deploy run, in execution order. -/
inductive Ev where
  /-- `execute_command(hook)` for a configured hook value. -/
  | cmd (hook : PyVal)
  /-- The `docker-compose ... ps --format json > ..._state.json` dump inside
  `create_backup`. -/
  | backupDump
  | pull
  | stop
  | build
  | start
  /-- Entry into `rollback` (its own stop/start events follow). -/
  | rollbackEv

/-- `DeploymentManager.create_backup` (strategies.py lines 22-56): same
policy check as the backup module, then file copies and a state dump inside
`try` (an exception there yields `""`); returns the backup path on success.
`none` models an exception escaping the method (`.get` on a non-mapping
`backup` section, `os.makedirs` on a non-string destination — both before or
outside the `try`). -/
def createBackup (cfg : PyDict) (backupName : Option String) (nowStamp : String)
    (w : World) : Option (String × World × List Ev) :=
  match pyGetD cfg "backup" (PyVal.dict []) with
  | PyVal.dict bd =>
      if ¬ pyTruthy ((findKey "enabled" bd).getD (PyVal.bool false)) then
        some ("Backup is not enabled", w, [])
      else
        let name :=
          match backupName with
          | some n => if n = "" then "backup_" ++ nowStamp else n
          | Option.none => "backup_" ++ nowStamp
        match (findKey "destination" bd).getD (PyVal.str "./backups") with
        | PyVal.str dir =>
            if w.backupIoFails then some ("", w, [])
            else some (dir ++ "/" ++ name, (pop w).2, [Ev.backupDump])
        | _ => Option.none
  | _ => Option.none

/-- The shared hook loop of `run_pre_deploy_hooks`/`run_post_deploy_hooks`
(strategies.py lines 66-70 and 83-87): run each hook through
`execute_command` in order; the first falsy result aborts the loop and
reports failure. -/
def runHookList (hooks : List PyVal) (w : World) : Bool × World × List Ev :=
  match hooks with
  | [] => (true, w, [])
  | h :: rest =>
      let (r, w1) := pop w
      if pyTruthyOpt r then
        let (b, w2, t) := runHookList rest w1
        (b, w2, Ev.cmd h :: t)
      else (false, w1, [Ev.cmd h])

/-- `DeploymentManager.run_pre_deploy_hooks` (strategies.py lines 58-73):
an absent/empty (falsy) hook list succeeds immediately; `none` models the
`TypeError` of iterating a non-iterable configured value. -/
def runPreDeployHooks (dcfg : PyDict) (w : World) :
    Option (Bool × World × List Ev) :=
  if ¬ pyTruthy (pyGetD dcfg "pre_deploy_hooks" (PyVal.list [])) then
    some (true, w, [])
  else
    match pyIterate (pyGetD dcfg "pre_deploy_hooks" (PyVal.list [])) with
    | Option.none => Option.none
    | some hooks => some (runHookList hooks w)

/-- `DeploymentManager.run_post_deploy_hooks` (strategies.py lines 75-90). -/
def runPostDeployHooks (dcfg : PyDict) (w : World) :
    Option (Bool × World × List Ev) :=
  if ¬ pyTruthy (pyGetD dcfg "post_deploy_hooks" (PyVal.list [])) then
    some (true, w, [])
  else
    match pyIterate (pyGetD dcfg "post_deploy_hooks" (PyVal.list [])) with
    | Option.none => Option.none
    | some hooks => some (runHookList hooks w)

/-- `DeploymentManager._deploy_recreate` (strategies.py lines 141-157):
pull (falsy result aborts), stop (result discarded), build (falsy result
aborts), start (success iff the result `is not None` — an empty stdout still
counts as success here). -/
def deployRecreate (w : World) : Bool × World × List Ev :=
  let (rPull, w1) := pop w
  if ¬ pyTruthyOpt rPull then (false, w1, [Ev.pull])
  else
    let (_, w2) := pop w1
    let (rBuild, w3) := pop w2
    if ¬ pyTruthyOpt rBuild then (false, w3, [Ev.pull, Ev.stop, Ev.build])
    else
      let (rStart, w4) := pop w3
      (rStart.isSome, w4, [Ev.pull, Ev.stop, Ev.build, Ev.start])

/-- `_deploy_rolling` (strategies.py lines 159-164): documented delegation to
the recreate sequence. -/
def deployRolling (w : World) : Bool × World × List Ev :=
  deployRecreate w

/-- `_deploy_blue_green` (strategies.py lines 166-171): documented delegation
to the recreate sequence. -/
def deployBlueGreen (w : World) : Bool × World × List Ev :=
  deployRecreate w

/-- `strategy or self.deployment_config.get('strategy', 'recreate')`
(strategies.py line 94): an explicit non-empty argument wins, otherwise the
configured value (itself defaulting to `'recreate'`). -/
def resolveStrategy (strategyArg : Option String) (dcfg : PyDict) : PyVal :=
  match strategyArg with
  | some s =>
      if s = "" then (findKey "strategy" dcfg).getD (PyVal.str "recreate")
      else PyVal.str s
  | Option.none => (findKey "strategy" dcfg).getD (PyVal.str "recreate")

/-- The strategy dispatch of `deploy` (strategies.py lines 114-119):
`==`-comparison against `'rolling'` and `'blue-green'`, anything else (the
`else` arm) recreates. -/
def deployStrategy (strategy : PyVal) (w : World) : Bool × World × List Ev :=
  if pyEqStr strategy "rolling" then deployRolling w
  else if pyEqStr strategy "blue-green" then deployBlueGreen w
  else deployRecreate w

/-- `DeploymentManager.rollback` (strategies.py lines 173-211): the file
restores are not observable here; then stop and start through the executor,
success iff the start result is truthy. -/
def rollback (w : World) : Bool × World × List Ev :=
  let (_, w1) := pop w
  let (rStart, w2) := pop w1
  (pyTruthyOpt rStart, w2, [Ev.rollbackEv, Ev.stop, Ev.start])

/-- `DeploymentManager.deploy` (strategies.py lines 92-139): backup (a falsy
reference fails immediately), pre-hooks (failure rolls back per policy),
strategy dispatch, post-hooks (failure only warns), with `try/except` around
the strategy and post-hook phase (an exception there is caught and rolls
back per policy).  `none` models an exception escaping `deploy` itself
(reading a non-mapping `deployment` section at line 94, a `create_backup`
exception, or a pre-hook iteration error — all outside the `try`). -/
def deploy (cfg : PyDict) (strategyArg : Option String) (w : World) :
    Option (Bool × World × List Ev) :=
  match pyGetD cfg "deployment" (PyVal.dict []) with
  | PyVal.dict dcfg =>
      let strategy := resolveStrategy strategyArg dcfg
      let rollbackOnFailure :=
        pyTruthy ((findKey "rollback_on_failure" dcfg).getD (PyVal.bool true))
      match createBackup cfg (some "pre_deploy") "" w with
      | Option.none => Option.none
      | some (backupPath, w1, t1) =>
        if backupPath = "" then some (false, w1, t1)
        else
          match runPreDeployHooks dcfg w1 with
          | Option.none => Option.none
          | some (okPre, w2, t2) =>
            if ¬ okPre then
              if rollbackOnFailure then
                let (_, w3, t3) := rollback w2
                some (false, w3, t1 ++ t2 ++ t3)
              else some (false, w2, t1 ++ t2)
            else
              let (okStrat, w3, t3) := deployStrategy strategy w2
              if ¬ okStrat then
                if rollbackOnFailure then
                  let (_, w4, t4) := rollback w3
                  some (false, w4, t1 ++ t2 ++ t3 ++ t4)
                else some (false, w3, t1 ++ t2 ++ t3)
              else
                match runPostDeployHooks dcfg w3 with
                | Option.none =>
                    if rollbackOnFailure then
                      let (_, w4, t4) := rollback w3
                      some (false, w4, t1 ++ t2 ++ t3 ++ t4)
                    else some (false, w3, t1 ++ t2 ++ t3)
                | some (_, w4, t4) => some (true, w4, t1 ++ t2 ++ t3 ++ t4)
  | _ => Option.none

end DeploymentManager

/-!
### Claims C1, C3, C4
-/

namespace DeploymentManager

theorem append_slash_ne_empty (a b : String) : a ++ "/" ++ b ≠ "" := by
  intro h
  have hl := congrArg String.length h
  rw [String.length_append, String.length_append] at hl
  have h1 : ("/" : String).length = 1 := rfl
  have h0 : ("" : String).length = 0 := rfl
  omega

/-- A falsy (`""`) backup reference can only come out of the `try` block's
exception handler, before any executor call: the world is untouched and no
event was recorded. -/
theorem createBackup_empty {cfg : PyDict} {nm : Option String} {ns : String}
    {w w' : World} {t' : List Ev}
    (h : createBackup cfg nm ns w = some ("", w', t')) : w' = w ∧ t' = [] := by
  unfold createBackup at h
  split at h
  all_goals try split at h
  all_goals try split at h
  all_goals try split at h
  all_goals try split at h
  all_goals try split at h
  all_goals first
    | exact Option.noConfusion h
    | (simp only [Option.some.injEq, Prod.mk.injEq] at h
       first
        | exact ⟨h.2.1.symm, h.2.2.symm⟩
        | exact absurd h.1 (append_slash_ne_empty _ _))

end DeploymentManager

/-- **C1.** A deploy whose Backup step yields no usable reference
(`create_backup` returns the falsy `""`) fails immediately: `deploy` returns
`False` with the executor untouched and an empty event trace — no pre-deploy
hook and no strategy step is executed.  (The hypothesis on the `deployment`
section being a mapping only says the strategy/policy reads at deploy's
lines 94-95 do not raise before the Backup step is reached.) -/
theorem deploy_fails_without_backup (cfg dcfg : PyDict) (sArg : Option String)
    (w w' : DeploymentManager.World) (t' : List DeploymentManager.Ev)
    (hdep : pyGetD cfg "deployment" (PyVal.dict []) = PyVal.dict dcfg)
    (hb : DeploymentManager.createBackup cfg (some "pre_deploy") "" w =
      some ("", w', t')) :
    DeploymentManager.deploy cfg sArg w = some (false, w, []) := by
  obtain ⟨rfl, rfl⟩ := DeploymentManager.createBackup_empty hb
  simp [DeploymentManager.deploy, hdep, hb]

/-- **C1 witness.** Backups enabled but the snapshot raising: `deploy`
returns `False` having run nothing. -/
theorem deploy_fails_without_backup_witness :
    DeploymentManager.deploy
        [("deployment", PyVal.dict []),
         ("backup", PyVal.dict [("enabled", PyVal.bool true)])]
        Option.none ⟨[], true⟩ = some (false, ⟨[], true⟩, []) :=
  deploy_fails_without_backup _ [] Option.none ⟨[], true⟩ ⟨[], true⟩ [] rfl rfl

/-- **C3 counterexample.** In the recreate strategy, with the stop step's
command failing (executor answers `None`) while pull, build and start
succeed, the sequence does **not** abort: build and start still run and the
strategy reports success — refuting "each of the four steps aborts the
sequence on failure" for the stop step. -/
theorem recreate_stop_failure_counterexample :
    DeploymentManager.deployRecreate
        ⟨[some "pulled", Option.none, some "built", some "up"], false⟩ =
      (true, ⟨[], false⟩,
        [DeploymentManager.Ev.pull, DeploymentManager.Ev.stop,
         DeploymentManager.Ev.build, DeploymentManager.Ev.start]) := by
  rfl

/-- **C3 (amended).** In the recreate strategy, a falsy pull result aborts
the sequence (stop, build and start never run) and a falsy build result
aborts it (start never runs), each reporting failure; the start step is last
and reports failure exactly when its result `is None`; the stop step's
result, however, is ignored — its failure does not abort the sequence. -/
theorem recreate_abort_semantics :
    (∀ (r : Option String) (rs : List (Option String)) (iof : Bool),
        DeploymentManager.pyTruthyOpt r = false →
        DeploymentManager.deployRecreate ⟨r :: rs, iof⟩ =
          (false, ⟨rs, iof⟩, [DeploymentManager.Ev.pull])) ∧
    (∀ (rp rstop rb : Option String) (rs : List (Option String)) (iof : Bool),
        DeploymentManager.pyTruthyOpt rp = true →
        DeploymentManager.pyTruthyOpt rb = false →
        DeploymentManager.deployRecreate ⟨rp :: rstop :: rb :: rs, iof⟩ =
          (false, ⟨rs, iof⟩,
            [DeploymentManager.Ev.pull, DeploymentManager.Ev.stop,
             DeploymentManager.Ev.build])) ∧
    (∀ (rp rstop rb rst : Option String) (rs : List (Option String)) (iof : Bool),
        DeploymentManager.pyTruthyOpt rp = true →
        DeploymentManager.pyTruthyOpt rb = true →
        DeploymentManager.deployRecreate ⟨rp :: rstop :: rb :: rst :: rs, iof⟩ =
          (rst.isSome, ⟨rs, iof⟩,
            [DeploymentManager.Ev.pull, DeploymentManager.Ev.stop,
             DeploymentManager.Ev.build, DeploymentManager.Ev.start])) := by
  refine ⟨?_, ?_, ?_⟩
  · intro r rs iof hr
    simp [DeploymentManager.deployRecreate, DeploymentManager.pop, hr]
  · intro rp rstop rb rs iof hp hb
    simp [DeploymentManager.deployRecreate, DeploymentManager.pop, hp, hb]
  · intro rp rstop rb rst rs iof hp hb
    simp [DeploymentManager.deployRecreate, DeploymentManager.pop, hp, hb]

/-- **C3 witness.** A failed pull aborts the recreate sequence at once. -/
theorem recreate_abort_semantics_witness :
    DeploymentManager.deployRecreate ⟨[Option.none], false⟩ =
      (false, ⟨[], false⟩, [DeploymentManager.Ev.pull]) :=
  recreate_abort_semantics.1 Option.none [] false rfl

namespace DeploymentManager

theorem runHookList_no_rollback (hooks : List PyVal) (w : World) :
    Ev.rollbackEv ∉ (runHookList hooks w).2.2 := by
  induction hooks generalizing w with
  | nil => simp [runHookList]
  | cons h rest ih =>
      unfold runHookList
      by_cases hr : pyTruthyOpt (pop w).1 = true
      · simp only [hr, if_pos]
        intro hmem
        rcases List.mem_cons.mp hmem with h1 | h2
        · exact Ev.noConfusion h1
        · exact ih (pop w).2 h2
      · simp only [hr, if_neg, Bool.false_eq_true, not_false_iff]
        intro hmem
        rcases List.mem_singleton.mp hmem with h1
        exact Ev.noConfusion h1

theorem runPreDeployHooks_no_rollback {dcfg : PyDict} {w : World} {b : Bool}
    {w' : World} {t : List Ev}
    (h : runPreDeployHooks dcfg w = some (b, w', t)) : Ev.rollbackEv ∉ t := by
  unfold runPreDeployHooks at h
  split at h
  · simp only [Option.some.injEq, Prod.mk.injEq] at h
    rw [← h.2.2]
    simp
  · split at h
    · exact Option.noConfusion h
    · rename_i hooks _
      simp only [Option.some.injEq] at h
      have := runHookList_no_rollback hooks w
      rw [h] at this
      simpa using this

theorem runPostDeployHooks_no_rollback {dcfg : PyDict} {w : World} {b : Bool}
    {w' : World} {t : List Ev}
    (h : runPostDeployHooks dcfg w = some (b, w', t)) : Ev.rollbackEv ∉ t := by
  unfold runPostDeployHooks at h
  split at h
  · simp only [Option.some.injEq, Prod.mk.injEq] at h
    rw [← h.2.2]
    simp
  · split at h
    · exact Option.noConfusion h
    · rename_i hooks _
      simp only [Option.some.injEq] at h
      have := runHookList_no_rollback hooks w
      rw [h] at this
      simpa using this

theorem createBackup_no_rollback {cfg : PyDict} {nm : Option String}
    {ns : String} {w : World} {bp : String} {w' : World} {t : List Ev}
    (h : createBackup cfg nm ns w = some (bp, w', t)) : Ev.rollbackEv ∉ t := by
  unfold createBackup at h
  split at h
  all_goals try split at h
  all_goals try split at h
  all_goals try split at h
  all_goals try split at h
  all_goals try split at h
  all_goals first
    | exact Option.noConfusion h
    | (simp only [Option.some.injEq, Prod.mk.injEq] at h
       rw [← h.2.2]
       simp)

theorem deployRecreate_no_rollback (w : World) :
    Ev.rollbackEv ∉ (deployRecreate w).2.2 := by
  unfold deployRecreate
  repeat' split
  all_goals simp

theorem deployStrategy_no_rollback (s : PyVal) (w : World) :
    Ev.rollbackEv ∉ (deployStrategy s w).2.2 := by
  unfold deployStrategy deployRolling deployBlueGreen
  split
  · exact deployRecreate_no_rollback w
  · split
    · exact deployRecreate_no_rollback w
    · exact deployRecreate_no_rollback w

end DeploymentManager

/-- **C4.** When the Backup, PreHooks and Strategy steps all succeed, a deploy
whose post-deploy hook phase fails still returns overall success (`True`):
the failure is only warned about, no rollback is triggered (no rollback event
occurs anywhere in the run's trace), and the boolean result is not changed
to `False`. -/
theorem deploy_posthook_failure_still_success
    (cfg dcfg : PyDict) (sArg : Option String) (w : DeploymentManager.World)
    (bp : String) (w1 : DeploymentManager.World) (t1 : List DeploymentManager.Ev)
    (w2 : DeploymentManager.World) (t2 : List DeploymentManager.Ev)
    (w3 : DeploymentManager.World) (t3 : List DeploymentManager.Ev)
    (w4 : DeploymentManager.World) (t4 : List DeploymentManager.Ev)
    (hdep : pyGetD cfg "deployment" (PyVal.dict []) = PyVal.dict dcfg)
    (hb : DeploymentManager.createBackup cfg (some "pre_deploy") "" w =
      some (bp, w1, t1))
    (hbp : bp ≠ "")
    (hpre : DeploymentManager.runPreDeployHooks dcfg w1 = some (true, w2, t2))
    (hstrat : DeploymentManager.deployStrategy
      (DeploymentManager.resolveStrategy sArg dcfg) w2 = (true, w3, t3))
    (hpost : DeploymentManager.runPostDeployHooks dcfg w3 = some (false, w4, t4)) :
    DeploymentManager.deploy cfg sArg w = some (true, w4, t1 ++ t2 ++ t3 ++ t4) ∧
      DeploymentManager.Ev.rollbackEv ∉ t1 ++ t2 ++ t3 ++ t4 := by
  constructor
  · simp [DeploymentManager.deploy, hdep, hb, hbp, hpre, hstrat, hpost]
  · intro hmem
    simp only [List.mem_append] at hmem
    rcases hmem with ((h1 | h2) | h3) | h4
    · exact DeploymentManager.createBackup_no_rollback hb h1
    · exact DeploymentManager.runPreDeployHooks_no_rollback hpre h2
    · have := DeploymentManager.deployStrategy_no_rollback
        (DeploymentManager.resolveStrategy sArg dcfg) w2
      rw [hstrat] at this
      exact this h3
    · exact DeploymentManager.runPostDeployHooks_no_rollback hpost h4

/-- **C4 witness.** Backup enabled, one pre-deploy and one post-deploy hook,
with executor responses making backup, pre-hook and the recreate strategy
succeed and the post-deploy hook fail: `deploy` still returns `True` and no
rollback event occurs. -/
theorem deploy_posthook_failure_witness :
    DeploymentManager.deploy
        [("deployment", PyVal.dict
            [("pre_deploy_hooks", PyVal.list [PyVal.str "p1"]),
             ("post_deploy_hooks", PyVal.list [PyVal.str "q1"])]),
         ("backup", PyVal.dict [("enabled", PyVal.bool true)])]
        Option.none
        ⟨[some "dump", some "ok", some "img", some "stp", some "blt",
          some "up", Option.none], false⟩ =
      some (true, ⟨[], false⟩,
        [DeploymentManager.Ev.backupDump] ++
          [DeploymentManager.Ev.cmd (PyVal.str "p1")] ++
          [DeploymentManager.Ev.pull, DeploymentManager.Ev.stop,
           DeploymentManager.Ev.build, DeploymentManager.Ev.start] ++
          [DeploymentManager.Ev.cmd (PyVal.str "q1")]) ∧
      DeploymentManager.Ev.rollbackEv ∉
        [DeploymentManager.Ev.backupDump] ++
          [DeploymentManager.Ev.cmd (PyVal.str "p1")] ++
          [DeploymentManager.Ev.pull, DeploymentManager.Ev.stop,
           DeploymentManager.Ev.build, DeploymentManager.Ev.start] ++
          [DeploymentManager.Ev.cmd (PyVal.str "q1")] :=
  deploy_posthook_failure_still_success
    [("deployment", PyVal.dict
        [("pre_deploy_hooks", PyVal.list [PyVal.str "p1"]),
         ("post_deploy_hooks", PyVal.list [PyVal.str "q1"])]),
     ("backup", PyVal.dict [("enabled", PyVal.bool true)])]
    [("pre_deploy_hooks", PyVal.list [PyVal.str "p1"]),
     ("post_deploy_hooks", PyVal.list [PyVal.str "q1"])]
    Option.none
    ⟨[some "dump", some "ok", some "img", some "stp", some "blt",
      some "up", Option.none], false⟩
    "./backups/pre_deploy"
    ⟨[some "ok", some "img", some "stp", some "blt", some "up",
      Option.none], false⟩
    [DeploymentManager.Ev.backupDump]
    ⟨[some "img", some "stp", some "blt", some "up", Option.none], false⟩
    [DeploymentManager.Ev.cmd (PyVal.str "p1")]
    ⟨[Option.none], false⟩
    [DeploymentManager.Ev.pull, DeploymentManager.Ev.stop,
     DeploymentManager.Ev.build, DeploymentManager.Ev.start]
    ⟨[], false⟩
    [DeploymentManager.Ev.cmd (PyVal.str "q1")]
    rfl rfl (by decide) rfl rfl rfl
